import Mathlib

/-!
Shallow embedding of the sprint-metrics core of the `iterationSummary`
repository (date normalizer, work-item categorizer, cycle-time calculator,
scope/burndown reconstructor, long-cycle outlier detection), together with
theorems settling the specification claims about that core.

Python `datetime` values are always normalized to midnight by the code under
study, so they are represented by their calendar date (`CivilDate`).  Day
arithmetic and ordering on dates are represented through `rataDie`, the count
of days since the civil epoch 1970-01-01 (for valid calendar dates the
`datetime` ordering coincides with this day-count ordering, and the
whole-day difference of two midnight datetimes is the difference of their day
counts).  Fallible Python code (statements whose exceptions are caught, or
propagate) is embedded in `Except`; functions that return `None` on failure
are embedded in `Option`.
-/

unseal Rat.add Rat.sub Rat.mul Rat.inv

deriving instance DecidableEq for Except

namespace IterationSummary

/-- A calendar date as carried by the (midnight-normalized) `datetime`
objects produced by the date-parsing layer. -/
structure CivilDate where
  year : Nat
  month : Nat
  day : Nat
deriving DecidableEq, Repr

/-- Gregorian leap-year test, as used by Python's `datetime` validation. -/
def isLeapYear (y : Nat) : Bool :=
  (y % 4 == 0 && y % 100 != 0) || y % 400 == 0

/-- Number of days in a month of a given year (Gregorian calendar). -/
def daysInMonth (y m : Nat) : Nat :=
  if m = 2 then (if isLeapYear y then 29 else 28)
  else if m = 4 ∨ m = 6 ∨ m = 9 ∨ m = 11 then 30
  else 31

/-- Validity of a calendar date, with the year range `1..9999` enforced by
Python's `datetime` constructor (`strptime`/`fromisoformat` raise
`ValueError` outside it). -/
def CivilDate.isValid (d : CivilDate) : Bool :=
  1 ≤ d.year && d.year ≤ 9999 && 1 ≤ d.month && d.month ≤ 12 &&
    1 ≤ d.day && d.day ≤ daysInMonth d.year d.month

/-- Day count of a civil date since 1970-01-01 (the standard
days-from-civil computation).  For valid dates this realizes the timeline
order and day differences of Python's midnight `datetime` values. -/
def rataDie (dt : CivilDate) : Int :=
  let y : Nat := if dt.month ≤ 2 then dt.year - 1 else dt.year
  let era : Nat := y / 400
  let yoe : Nat := y % 400
  let mp : Nat := (dt.month + 9) % 12
  let doy : Nat := (153 * mp + 2) / 5 + dt.day - 1
  let doe : Nat := yoe * 365 + yoe / 4 - yoe / 100 + doy
  (era * 146097 + doe : Int) - 719468

/-- Numeric value of an ASCII digit character. -/
def digitVal (c : Char) : Nat := c.toNat - 48

/-- Decimal decoding of a digit string. -/
def decodeNat (cs : List Char) : Nat := cs.foldl (fun a c => 10 * a + digitVal c) 0

/-- Models `datetime.strptime(s, "%Y-%m-%d")` on a string required to match
in full: exactly ten characters laid out as four year digits, `-`, two month
digits, `-`, two day digits, denoting a valid calendar date (on a 10-character
input with dashes at positions 4 and 7 the format forces two-digit month and
day fields).  `ValueError` is the `error` case. -/
def strptimeYMD (cs : List Char) : Except Unit IterationSummary.CivilDate :=
  match cs with
  | [y1, y2, y3, y4, h1, m1, m2, h2, d1, d2] =>
    if y1.isDigit && y2.isDigit && y3.isDigit && y4.isDigit && h1 == '-' &&
        m1.isDigit && m2.isDigit && h2 == '-' && d1.isDigit && d2.isDigit then
      let dt : CivilDate :=
        ⟨decodeNat [y1, y2, y3, y4], decodeNat [m1, m2], decodeNat [d1, d2]⟩
      if dt.isValid then .ok dt else .error ()
    else .error ()
  | _ => .error ()

/-- Two ASCII digits bounded by `hi`, consumed from the front. -/
def twoDigitsLE (hi : Nat) : List Char → Option (List Char)
  | a :: b :: rest =>
    if a.isDigit && b.isDigit && 10 * digitVal a + digitVal b ≤ hi then some rest
    else none
  | _ => none

/-- A run of exactly `n` ASCII digits, consumed from the front. -/
def digitRun : Nat → List Char → Option (List Char)
  | 0, rest => some rest
  | n + 1, c :: rest => if c.isDigit then digitRun n rest else none
  | _ + 1, [] => none

/-- The optional fractional-seconds suffix of an ISO time: empty, `.fff`, or
`.ffffff`. -/
def isoFracOk (cs : List Char) : Bool :=
  match cs with
  | [] => true
  | '.' :: rest => (digitRun 3 rest == some []) || (digitRun 6 rest == some [])
  | _ => false

/-- An ISO UTC offset `±HH:MM[:SS[.ffffff]]`, or nothing. -/
def isoOffsetOk (cs : List Char) : Bool :=
  match cs with
  | [] => true
  | s :: rest =>
    (s == '+' || s == '-') &&
      (match twoDigitsLE 23 rest with
        | none => false
        | some r1 =>
          match r1 with
          | ':' :: r2 =>
            match twoDigitsLE 59 r2 with
            | none => false
            | some r3 =>
              match r3 with
              | [] => true
              | ':' :: r4 =>
                match twoDigitsLE 59 r4 with
                | none => false
                | some r5 => isoFracOk r5
              | _ => false
          | _ => false)

/-- The time-of-day part of an ISO string: `HH[:MM[:SS[.fff[fff]]]]`
followed by an optional UTC offset. -/
def isoTimeOk (cs : List Char) : Bool :=
  match twoDigitsLE 23 cs with
  | none => false
  | some r1 =>
    match r1 with
    | ':' :: r2 =>
      (match twoDigitsLE 59 r2 with
        | none => false
        | some r3 =>
          match r3 with
          | ':' :: r4 =>
            (match twoDigitsLE 59 r4 with
              | none => false
              | some r5 =>
                match r5 with
                | '.' :: _ => isoFracOk (r5.takeWhile (fun c => c == '.' || c.isDigit))
                    && isoOffsetOk (r5.dropWhile (fun c => c == '.' || c.isDigit))
                  | _ => isoOffsetOk r5)
          | _ => isoOffsetOk r3)
    | _ => isoOffsetOk r1

/-- Models `datetime.fromisoformat` (Python 3.10 grammar): a `YYYY-MM-DD`
date, optionally followed by a single separator character and a time of day
with optional UTC offset.  The caller truncates the result to midnight, so
only the calendar date is returned. -/
def fromisoformat (cs : List Char) : Except Unit IterationSummary.CivilDate :=
  match strptimeYMD (cs.take 10) with
  | .error _ => .error ()
  | .ok dt =>
    match cs.drop 10 with
    | [] => .ok dt
    | _sep :: timeRest => if isoTimeOk timeRest then .ok dt else .error ()

/-- The fractional-second stripping step of `parse_azure_date_to_datetime`:
when the string contains a `.` together with a `Z` or a `+`, keep the prefix
before the first `.` and re-attach `Z`, or `+` followed by the chunk between
the first and second `+` (`split('+')[1]`). -/
def stripFrac (cs : List Char) : List Char :=
  if cs.contains '.' && (cs.contains 'Z' || cs.contains '+') then
    let datePart := cs.takeWhile (fun c => c != '.')
    if cs.contains 'Z' then datePart ++ ['Z']
    else
      let tzPart := ((cs.dropWhile (fun c => c != '+')).drop 1).takeWhile (fun c => c != '+')
      datePart ++ '+' :: tzPart
  else cs

/-- The `Z` normalization step: when the string ends in `Z`, replace every
`Z` by `+00:00` (Python's `str.replace` replaces all occurrences). -/
def normalizeZ (cs : List Char) : List Char :=
  if cs.getLast? == some 'Z' then
    cs.flatMap (fun c => if c == 'Z' then ['+', '0', '0', ':', '0', '0'] else [c])
  else cs

/-- Models `datetime.strptime(s, "%Y-%m-%d" ++ sep ++ "%H:%M:%S")` matched in
full against `s`: the 9 characters after the date are the separator, two hour
digits (≤ 23), `:`, two minute digits (≤ 59), `:`, and two second digits
(`%S` accepts up to 61). -/
def timePartOk (sep : Char) (cs : List Char) : Bool :=
  match cs with
  | [s0, h1, h2, c1, m1, m2, c2, x1, x2] =>
    s0 == sep && h1.isDigit && h2.isDigit && 10 * digitVal h1 + digitVal h2 ≤ 23 &&
      c1 == ':' && m1.isDigit && m2.isDigit && 10 * digitVal m1 + digitVal m2 ≤ 59 &&
      c2 == ':' && x1.isDigit && x2.isDigit && 10 * digitVal x1 + digitVal x2 ≤ 61
  | _ => false

/-- `strptime` against a full date-time fallback format (date, separator,
time); the result is truncated to midnight, so only the date is returned. -/
def strptimeDT (sep : Char) (cs : List Char) : Except Unit IterationSummary.CivilDate :=
  if timePartOk sep (cs.drop 10) then strptimeYMD (cs.take 10) else .error ()

/-- `parse_azure_date_to_datetime`, translated from
`azure_devops_dashboard.py`.  The argument is `none` for Python `None`; an
empty string is falsy, so both return `None`.  The body's `try` block first
takes the fast path when the string has length ≥ 10 with `-` at positions 4
and 7, otherwise strips fractional seconds, normalizes a trailing `Z` and
attempts a strict ISO parse; any exception falls into the `except` handler,
which tries the formats `%Y-%m-%dT%H:%M:%S`, `%Y-%m-%d %H:%M:%S` and
`%Y-%m-%d` against the first 19 characters and finally returns `None`.
Every returned datetime is normalized to midnight, hence a `CivilDate`. -/
def parse_azure_date_to_datetime (dateStr : Option String) : Option IterationSummary.CivilDate :=
  match dateStr with
  | none => none
  | some s =>
    if s.isEmpty then none
    else
      let cs := s.data
      let tryMain : Except Unit CivilDate :=
        if 10 ≤ cs.length && cs.getD 4 ' ' == '-' && cs.getD 7 ' ' == '-' then
          strptimeYMD (cs.take 10)
        else
          fromisoformat (normalizeZ (stripFrac cs))
      match tryMain with
      | .ok d => some d
      | .error _ =>
        match strptimeDT 'T' (cs.take 19) with
        | .ok d => some d
        | .error _ =>
          match strptimeDT ' ' (cs.take 19) with
          | .ok d => some d
          | .error _ =>
            match strptimeYMD (cs.take 19) with
            | .ok d => some d
            | .error _ => none

/-- `COMPLETED_STATES` from `azure_devops_dashboard.py`. -/
def COMPLETED_STATES : List String := ["Closed", "Resolved"]

/-- `REMAINING_STATES` from `render_burndown_tab`. -/
def REMAINING_STATES : List String := ["Active", "Ready", "New"]

/-- `resolved_date_dt if resolved_date_dt else closed_date_dt`: the
completion date of an item, with the resolved date taking priority. -/
def completionOf (resolved closed : Option IterationSummary.CivilDate) : Option IterationSummary.CivilDate :=
  match resolved with
  | some r => some r
  | none => closed

/-- The cycle-time computation of `process_work_items`, translated from
`azure_devops_dashboard.py` lines 652-673.  Primary rule: activation to
completion when the completion is not earlier; fallback (entered whenever the
primary rule produced no value): creation to completion when the completion
is not earlier.  The whole-day difference of midnight datetimes is the
difference of day counts. -/
def cycleTime (created activated resolved closed : Option IterationSummary.CivilDate) : Option Int :=
  let completion := completionOf resolved closed
  let primary : Option Int :=
    match activated, completion with
    | some a, some c =>
      if rataDie a ≤ rataDie c then some (rataDie c - rataDie a) else none
    | _, _ => none
  match primary with
  | some v => some v
  | none =>
    match created, completion with
    | some cr, some c =>
      if rataDie cr ≤ rataDie c then some (rataDie c - rataDie cr) else none
    | _, _ => none

/-- Python `str.lower` restricted to ASCII (all keywords below are ASCII). -/
def strLower (s : String) : String := ⟨s.data.map Char.toLower⟩

/-- Python's `needle in hay` for strings: contiguous-substring containment. -/
def containsSub (hay needle : String) : Bool := decide (needle.data <:+: hay.data)

/-- `ux_keywords` from `categorize_work_item` (verbatim, including the
trailing space in the first entry). -/
def ux_keywords : List String :=
  ["ux ", "user experience", "usability", "user interface design",
   "interaction design", "user research", "wireframe", "mockup", "prototype",
   "user journey", "persona", "accessibility", "user testing", "design system",
   "visual design", "information architecture", "user flow", "design pattern",
   "user story mapping", "design thinking", "user-centered", "human-computer interaction"]

/-- `qa_keywords` from `categorize_work_item`. -/
def qa_keywords : List String :=
  ["qa", "quality assurance", "testing", "test", "sqa", "software quality",
   "qa engineer", "qa lead", "test case", "test plan", "automation test",
   "regression test", "integration test", "unit test", "performance test",
   "load test", "security test", "acceptance test", "validation", "verification"]

/-- `frontend_keywords` from `categorize_work_item`. -/
def frontend_keywords : List String :=
  ["frontend", "front-end", "fe ", "ui", "user interface", "button", "screen",
   "window", "tab", "grid", "upload", "branding", "text", "alert", "breadcrumb",
   "scroll", "menu", "welcome", "settings", "angular", "saffron", "component",
   "react", "vue", "javascript", "typescript", "css", "html", "scss", "sass",
   "bootstrap", "material-ui", "responsive", "mobile", "web app", "spa",
   "client-side", "browser", "dom", "jquery", "ajax", "form", "modal",
   "dropdown", "navigation", "header", "footer", "sidebar", "layout"]

/-- `backend_keywords` from `categorize_work_item`. -/
def backend_keywords : List String :=
  ["backend", "back-end", "api", "service", "endpoint", "lambda", "aws",
   "database", "postgres", "server", "deprecate", "ultratax", "taxassistant",
   "workflow", "metric", "email", "microservice", "rest", "graphql", "sql",
   "nosql", "mongodb", "redis", "cache", "queue", "job", "cron", "batch",
   "authentication", "authorization", "security", "encryption", "token",
   "middleware", "framework", "spring", "node.js", "python", "java",
   "docker", "kubernetes", "deployment", "infrastructure", "cloud",
   "integration", "webhook", "message", "event", "stream"]

/-- `categorize_work_item`, translated from `azure_devops_dashboard.py`
lines 701-776: type override, then the `uxe` tag check, then the UX, QA,
Frontend and Backend keyword scans over the lowercased title (a `for` loop
returning at the first hit is containment by any keyword of the list), and
finally the explicit `Frontend` default. -/
def categorize_work_item (title workType tags : String) : String :=
  let titleLower := strLower title
  let tagsLower := strLower tags
  if workType == "Bug" then "Bug"
  else if containsSub tagsLower "uxe" then "UX"
  else if ux_keywords.any (fun k => containsSub titleLower k) then "UX"
  else if qa_keywords.any (fun k => containsSub titleLower k) then "QA"
  else if frontend_keywords.any (fun k => containsSub titleLower k) then "Frontend"
  else if backend_keywords.any (fun k => containsSub titleLower k) then "Backend"
  else "Frontend"

/-- The fields of a processed work item consumed by the burndown loop of
`render_burndown_tab`: the workflow state, the parsed resolved/closed dates
and the story points (`or 0` coerces a missing value to `0`; pandas keeps
the numeric value otherwise, embedded exactly as a rational). -/
structure BItem where
  state : String
  resolved_date : Option IterationSummary.CivilDate
  closed_date : Option IterationSummary.CivilDate
  story_points : Rat
deriving DecidableEq, Repr

/-- A row of `burndown_data`: one `DailyScopeSnapshot` per day. -/
structure DailyScopeSnapshot where
  date : Int
  remaining_items : Int
  remaining_points : Rat
  completed_items : Int
  completed_points : Rat
  total_scope_items : Int
  total_scope_points : Rat
deriving DecidableEq, Repr

/-- `scope_items = df[df['state'].isin(REMAINING_STATES + COMPLETED_STATES)]`. -/
def scopeItems (items : List BItem) : List BItem :=
  items.filter (fun it => (REMAINING_STATES ++ COMPLETED_STATES).contains it.state)

/-- One iteration of the inner `for _, item in scope_items.iterrows()` body:
whether the item counts as completed as of day `cur`.  Dates are day counts
(`rataDie` values); `sprintStart` is both `sprint_start_date` and
`start_date` in the source.  An item in a completed state whose completion
date (`resolved ?? closed`) lies in `[sprintStart, cur]` counts; an item in a
completed state with no completion date counts when
`(cur - start).days / (end - start).days >= 0.5` — for a single-day sprint
that quotient raises `ZeroDivisionError`, embedded as the `error` case
(the float comparison is exact rational comparison at these magnitudes). -/
def itemCompletedBy (sprintStart sprintEnd cur : Int) (it : BItem) : Except String Bool :=
  if it.state ∈ COMPLETED_STATES then
    match completionOf it.resolved_date it.closed_date with
    | some c => .ok (decide (sprintStart ≤ rataDie c ∧ rataDie c ≤ cur))
    | none =>
      if sprintEnd - sprintStart = 0 then .error "ZeroDivisionError"
      else .ok (decide ((1 : Rat) / 2 ≤ ((cur - sprintStart : Int) : Rat) / ((sprintEnd - sprintStart : Int) : Rat)))
  else .ok false

/-- The accumulation of `completed_by_date_items` and
`completed_by_date_points` over `scope_items`, processing items left to
right exactly as the `for` loop does (the first raised exception aborts). -/
def completedByDate (sprintStart sprintEnd cur : Int) : List BItem → Except String (Int × Rat)
  | [] => .ok (0, 0)
  | it :: rest =>
    match itemCompletedBy sprintStart sprintEnd cur it with
    | .error err => .error err
    | .ok b =>
      match completedByDate sprintStart sprintEnd cur rest with
      | .error err => .error err
      | .ok (ci, cp) => .ok (if b then (ci + 1, cp + it.story_points) else (ci, cp))

/-- One day of the burndown loop: the completed tallies for day `cur`, the
remaining tallies `max(0, total - completed)`, and the constant totals. -/
def dailySnapshot (scope : List BItem) (totalItems : Int) (totalPoints : Rat)
    (sprintStart sprintEnd cur : Int) : Except String DailyScopeSnapshot :=
  match completedByDate sprintStart sprintEnd cur scope with
  | .error err => .error err
  | .ok (ci, cp) =>
    .ok { date := cur
          remaining_items := max 0 (totalItems - ci)
          remaining_points := max 0 (totalPoints - cp)
          completed_items := ci
          completed_points := cp
          total_scope_items := totalItems
          total_scope_points := totalPoints }

/-- `parse_azure_date_to_datetime` applied to a value that is already a
`datetime`, as the first-day debug block of `render_burndown_tab` does with
the dataframe's `resolved_date`/`closed_date` columns (stored pre-parsed by
`process_work_items`): the datetime is truthy, `len(date_str)` raises
`TypeError`, caught by the outer handler, and each fallback
`strptime(date_str[:19], ...)` raises `TypeError` on the slice, caught by
the bare `except`, so the function returns `None` for every datetime
input. -/
def parse_azure_date_of_datetime (_d : IterationSummary.CivilDate) : Option IterationSummary.CivilDate :=
  none

/-- The completion date the first-day debug block derives for an item
(lines 2682-2689): `parse_azure_date_to_datetime` on the already-parsed
resolved date if present, else on the closed date if present, else `None`
(a `None`/`NaT` column value either is falsy or also parses to `None`). -/
def debugCompletionDate (it : BItem) : Option IterationSummary.CivilDate :=
  match it.resolved_date with
  | some r => parse_azure_date_of_datetime r
  | none =>
    match it.closed_date with
    | some c => parse_azure_date_of_datetime c
    | none => none

/-- One item of the first-day debug table (lines 2691-2702): for an item in
a completed state whose debug-derived completion date is absent, the block
evaluates `sprint_progress = (cur - start).days / (end - start).days`
before any comparison — `ZeroDivisionError` when the sprint is a single
day; all other paths only build display text. -/
def debugItemCheck (sprintStart sprintEnd _cur : Int) (it : BItem) : Except String Unit :=
  if it.state ∈ COMPLETED_STATES then
    match debugCompletionDate it with
    | some _ => .ok ()
    | none =>
      if sprintEnd - sprintStart = 0 then .error "ZeroDivisionError" else .ok ()
  else .ok ()

/-- The first-day debug table's `for _, item in scope_items.iterrows()`
loop, processing items left to right; the first raised exception aborts. -/
def debugPass (sprintStart sprintEnd cur : Int) : List BItem → Except String Unit
  | [] => .ok ()
  | it :: rest =>
    match debugItemCheck sprintStart sprintEnd cur it with
    | .error err => .error err
    | .ok _ => debugPass sprintStart sprintEnd cur rest

/-- The daily iteration: on the first day (`current_date == start_date`)
the debug table pass runs before the counting loop; then one snapshot per
day of the given list of days.  An exception raised on any day propagates
out of the whole loop, producing no series at all, exactly as an uncaught
Python exception would. -/
def burndownLoop (scope : List BItem) (totalItems : Int) (totalPoints : Rat)
    (sprintStart sprintEnd : Int) : List Int → Except String (List DailyScopeSnapshot)
  | [] => .ok []
  | cur :: rest =>
    match (if cur = sprintStart then debugPass sprintStart sprintEnd cur scope else .ok ()) with
    | .error err => .error err
    | .ok _ =>
      match dailySnapshot scope totalItems totalPoints sprintStart sprintEnd cur with
      | .error err => .error err
      | .ok snap =>
        match burndownLoop scope totalItems totalPoints sprintStart sprintEnd rest with
        | .error err => .error err
        | .ok snaps => .ok (snap :: snaps)

/-- The days `sprintStart, sprintStart + 1, ..., sprintEnd` walked by
`while current_date <= end_date`. -/
def sprintDays (sprintStart sprintEnd : Int) : List Int :=
  (List.range (sprintEnd - sprintStart + 1).toNat).map (fun i => sprintStart + i)

/-- The burndown reconstruction of `render_burndown_tab`: filter to in-scope
items, compute the constant totals once, then iterate `current_date` from
`sprintStart` to `sprintEnd` inclusive appending one snapshot per day. -/
def render_burndown_series (items : List BItem) (sprintStart sprintEnd : Int) :
    Except String (List DailyScopeSnapshot) :=
  let scope := scopeItems items
  let totalItems : Int := scope.length
  let totalPoints : Rat := (scope.map BItem.story_points).sum
  burndownLoop scope totalItems totalPoints sprintStart sprintEnd (sprintDays sprintStart sprintEnd)

/-- A row of `cycle_time_items` (the completed items whose
`cycle_time_days` is not null) as consumed by the long-cycle section of
`render_overview_tab`: an identifier and the cycle time. -/
structure CycleRow where
  id : Int
  cycle_time_days : Rat
deriving DecidableEq, Repr

/-- `cycle_time_items['cycle_time_days']`. -/
def cycleValues (rows : List CycleRow) : List Rat := rows.map CycleRow.cycle_time_days

/-- The mean of a list of values (`pandas.Series.mean`). -/
def listMean (l : List Rat) : Rat := l.sum / l.length

/-- The sample variance with denominator `n - 1` (`pandas.Series.std` is the
square root of this, `ddof = 1`, matching `statistics.stdev`). -/
def sampleVariance (l : List Rat) : Rat :=
  ((l.map (fun x => (x - listMean l) ^ 2)).sum) / ((l.length : Rat) - 1)

/-- The sample standard deviation, as an exact real (the source computes it
in floating point). -/
noncomputable def sampleStd (l : List Rat) : Real := Real.sqrt (sampleVariance l)

/-- `long_cycle_threshold = avg + std if len(cycle_time_items) > 1 else avg + 5`
from `render_overview_tab` (line 1282). -/
noncomputable def long_cycle_threshold (rows : List CycleRow) : Real :=
  if 1 < rows.length then
    (listMean (cycleValues rows) : Real) + sampleStd (cycleValues rows)
  else (listMean (cycleValues rows) : Real) + 5

/-- The threshold of `analyze_cycle_time` in `azure_devops_sprint_report.py`
(lines 222-229): `avg + stdev` when more than one data point, and
`avg * 1.5` otherwise. -/
noncomputable def analyze_cycle_time_threshold (rows : List CycleRow) : Real :=
  if 1 < rows.length then
    (listMean (cycleValues rows) : Real) + sampleStd (cycleValues rows)
  else (listMean (cycleValues rows) : Real) * 1.5

/-- The descending-by-cycle-time order used by
`sort_values('cycle_time_days', ascending=False)`. -/
def cycleGE (a b : CycleRow) : Prop := b.cycle_time_days ≤ a.cycle_time_days

instance : DecidableRel cycleGE := fun a b =>
  inferInstanceAs (Decidable (b.cycle_time_days ≤ a.cycle_time_days))

instance : IsTotal CycleRow cycleGE :=
  ⟨fun a b => (le_total b.cycle_time_days a.cycle_time_days).imp id id⟩

instance : IsTrans CycleRow cycleGE :=
  ⟨fun _ _ _ h1 h2 => le_trans h2 h1⟩

/-- `long_items = cycle_time_items[cycle_time_items['cycle_time_days'] >
long_cycle_threshold].sort_values('cycle_time_days', ascending=False)` from
`render_overview_tab` (line 1283): the rows exceeding the threshold, sorted
descending by cycle time. -/
noncomputable def long_items (rows : List CycleRow) : List CycleRow :=
  (rows.filter (fun r => decide (long_cycle_threshold rows < (r.cycle_time_days : Real)))).insertionSort cycleGE

/-- C8: for every combination of created, activated, resolved and closed
dates (each present or absent), `cycleTime` returns either `none` or an
integer `≥ 0`; it never returns a negative value. -/
theorem cycleTime_nonneg (created activated resolved closed : Option CivilDate) (v : Int)
    (h : cycleTime created activated resolved closed = some v) : 0 ≤ v := by
  unfold cycleTime at h
  cases hC : completionOf resolved closed with
  | none =>
    rw [hC] at h
    cases activated <;> cases created <;> simp at h
  | some c =>
    rw [hC] at h
    have fall : ∀ w : Option CivilDate,
        (match w, some c with
          | some cr, some cc =>
            if rataDie cr ≤ rataDie cc then some (rataDie cc - rataDie cr) else none
          | _, _ => (none : Option Int)) = some v → 0 ≤ v := by
      intro w hw
      cases w with
      | none => simp at hw
      | some cr =>
        simp only [] at hw
        split_ifs at hw with hle
        rw [Option.some.injEq] at hw
        omega
    cases activated with
    | none => exact fall created h
    | some a =>
      simp only [] at h
      split_ifs at h with hle
      · rw [Option.some.injEq] at h
        omega
      · exact fall created h

/-- Witness for C8: a concrete run of `cycleTime` whose value the theorem
bounds below by zero. -/
theorem cycleTime_nonneg_witness :
    cycleTime (some ⟨2025, 1, 1⟩) none (some ⟨2025, 1, 10⟩) none = some 9 ∧ (0 : Int) ≤ 9 := by
  constructor
  · decide
  · exact cycleTime_nonneg (some ⟨2025, 1, 1⟩) none (some ⟨2025, 1, 10⟩) none 9 (by decide)

/-- C7: when the activation date is absent and the created date and the
completion date (`resolved ?? closed`) are both present with the completion
not earlier than the creation, `cycleTime` returns their whole-day
difference. -/
theorem cycleTime_created_fallback (created resolved closed : Option CivilDate) (cr c : CivilDate)
    (hcr : created = some cr) (hc : completionOf resolved closed = some c)
    (hle : rataDie cr ≤ rataDie c) :
    cycleTime created none resolved closed = some (rataDie c - rataDie cr) := by
  subst hcr
  unfold cycleTime
  rw [hc]
  simp [hle]

/-- Witness for C7: the spec's own concrete instance,
`cycleTime(created=2025-01-01, activated=null, resolved=2025-01-10,
closed=null) == 9`. -/
theorem cycleTime_created_fallback_witness :
    cycleTime (some ⟨2025, 1, 1⟩) none (some ⟨2025, 1, 10⟩) none = some 9 := by
  have h := cycleTime_created_fallback (some ⟨2025, 1, 1⟩) (some ⟨2025, 1, 10⟩) none
    ⟨2025, 1, 1⟩ ⟨2025, 1, 10⟩ rfl rfl (by decide)
  exact h.trans (by decide)

/-- Counterexample to C3 as stated: with created = 2025-01-01,
activated = 2025-01-20, resolved = 2025-01-10 the completion date is
strictly before the activation date, yet `cycleTime` is not `none` — the
created-date fallback fires (returning 9). -/
theorem cycleTime_inverted_range_counterexample :
    rataDie ⟨2025, 1, 10⟩ < rataDie ⟨2025, 1, 20⟩ ∧
    completionOf (some ⟨2025, 1, 10⟩) none = some ⟨2025, 1, 10⟩ ∧
    cycleTime (some ⟨2025, 1, 1⟩) (some ⟨2025, 1, 20⟩) (some ⟨2025, 1, 10⟩) none ≠ none := by
  refine ⟨by decide, rfl, ?_⟩
  decide

/-- C3 (amended): when the activation date and the completion date are both
present with the completion strictly earlier, the primary rule yields no
value; `cycleTime` is then exactly the created-date fallback — `none` when
the created date is absent or later than the completion, and the
(non-negative) completion − created difference otherwise. -/
theorem cycleTime_inverted_range (created resolved closed : Option CivilDate) (a c : CivilDate)
    (hc : completionOf resolved closed = some c) (hlt : rataDie c < rataDie a) :
    cycleTime created (some a) resolved closed =
      match created with
      | some cr => if rataDie cr ≤ rataDie c then some (rataDie c - rataDie cr) else none
      | none => none := by
  unfold cycleTime
  rw [hc]
  have hn : ¬ rataDie a ≤ rataDie c := not_le.mpr hlt
  simp only [if_neg hn]
  cases created <;> rfl

/-- Witness for C3 (amended) at the counterexample's input. -/
theorem cycleTime_inverted_range_witness :
    rataDie ⟨2025, 1, 10⟩ < rataDie ⟨2025, 1, 20⟩ ∧
    cycleTime (some ⟨2025, 1, 1⟩) (some ⟨2025, 1, 20⟩) (some ⟨2025, 1, 10⟩) none = some 9 := by
  refine ⟨by decide, ?_⟩
  have h := cycleTime_inverted_range (some ⟨2025, 1, 1⟩) (some ⟨2025, 1, 10⟩) none
    ⟨2025, 1, 20⟩ ⟨2025, 1, 10⟩ rfl (by decide)
  exact h.trans (by decide)

/-- C6: for every (title, type, tags) triple, `categorize_work_item` returns
exactly one label of the fixed set {Bug, UX, QA, Frontend, Backend} (so never
null or empty), and when no rule of the priority chain matches it returns
the explicit `Frontend` default. -/
theorem categorize_total (title workType tags : String) :
    categorize_work_item title workType tags ∈ ["Bug", "UX", "QA", "Frontend", "Backend"] ∧
    (workType ≠ "Bug" →
     containsSub (strLower tags) "uxe" = false →
     ux_keywords.any (fun k => containsSub (strLower title) k) = false →
     qa_keywords.any (fun k => containsSub (strLower title) k) = false →
     frontend_keywords.any (fun k => containsSub (strLower title) k) = false →
     backend_keywords.any (fun k => containsSub (strLower title) k) = false →
     categorize_work_item title workType tags = "Frontend") := by
  constructor
  · unfold categorize_work_item
    dsimp only
    repeat' split
    all_goals decide
  · intro h1 h2 h3 h4 h5 h6
    unfold categorize_work_item
    have hb : (workType == "Bug") = false := by
      simpa using h1
    simp only [hb, h2, h3, h4, h5, h6, Bool.false_eq_true, if_false]

/-- Witness for C6: a title matching no keyword list falls through to the
`Frontend` default. -/
theorem categorize_total_witness :
    ("Task" : String) ≠ "Bug" ∧ categorize_work_item "zzz" "Task" "" = "Frontend" :=
  ⟨by decide, (categorize_total "zzz" "Task" "").2 (by decide) (by decide) (by decide)
    (by decide) (by decide) (by decide)⟩

/-- C5: for every string whose first 10 characters form a `YYYY-MM-DD` date
(digits in the digit positions, `-` at positions 4 and 7, and the encoded
triple a valid calendar date), `parse_azure_date_to_datetime` returns a
non-null date whose year, month and day are the ones decoded from those 10
characters, regardless of any trailing content. -/
theorem parse_fast_path (s : String) (y1 y2 y3 y4 m1 m2 d1 d2 : Char)
    (htake : s.data.take 10 = [y1, y2, y3, y4, '-', m1, m2, '-', d1, d2])
    (hdig : (y1.isDigit && y2.isDigit && y3.isDigit && y4.isDigit &&
             m1.isDigit && m2.isDigit && d1.isDigit && d2.isDigit) = true)
    (hvalid : (CivilDate.mk (decodeNat [y1, y2, y3, y4]) (decodeNat [m1, m2])
        (decodeNat [d1, d2])).isValid = true) :
    parse_azure_date_to_datetime (some s) =
      some ⟨decodeNat [y1, y2, y3, y4], decodeNat [m1, m2], decodeNat [d1, d2]⟩ := by
  have hlen : 10 ≤ s.data.length := by
    have h1 : (s.data.take 10).length = 10 := by rw [htake]; rfl
    rw [List.length_take] at h1
    omega
  have hne : s.isEmpty = false := by
    rw [Bool.eq_false_iff]
    intro hcon
    have h2 : s = "" := (String.isEmpty_iff s).mp hcon
    subst h2
    simp at hlen
  have h4 : s.data.getD 4 ' ' = '-' := by
    have h := List.getElem?_take (l := s.data) (n := 10) (m := 4)
    rw [htake] at h
    rw [List.getD_eq_getElem?_getD]
    simp at h
    rw [← h]
    rfl
  have h7 : s.data.getD 7 ' ' = '-' := by
    have h := List.getElem?_take (l := s.data) (n := 10) (m := 7)
    rw [htake] at h
    rw [List.getD_eq_getElem?_getD]
    simp at h
    rw [← h]
    rfl
  have hguard : (10 ≤ s.data.length && s.data.getD 4 ' ' == '-' && s.data.getD 7 ' ' == '-') = true := by
    rw [Bool.and_eq_true, Bool.and_eq_true]
    exact ⟨⟨decide_eq_true hlen, beq_iff_eq.mpr h4⟩, beq_iff_eq.mpr h7⟩
  simp only [Bool.and_eq_true] at hdig
  obtain ⟨⟨⟨⟨⟨⟨⟨hy1, hy2⟩, hy3⟩, hy4⟩, hm1⟩, hm2⟩, hd1⟩, hd2⟩ := hdig
  have hcond : (y1.isDigit && y2.isDigit && y3.isDigit && y4.isDigit && ('-' == '-') &&
      m1.isDigit && m2.isDigit && ('-' == '-') && d1.isDigit && d2.isDigit) = true := by
    simp [hy1, hy2, hy3, hy4, hm1, hm2, hd1, hd2]
  have hmain : (if (10 ≤ s.data.length && s.data.getD 4 ' ' == '-' && s.data.getD 7 ' ' == '-') = true
      then strptimeYMD (s.data.take 10)
      else fromisoformat (normalizeZ (stripFrac s.data))) =
      .ok ⟨decodeNat [y1, y2, y3, y4], decodeNat [m1, m2], decodeNat [d1, d2]⟩ := by
    rw [if_pos hguard, htake]
    unfold strptimeYMD
    simp only []
    rw [if_pos hcond, if_pos hvalid]
  unfold parse_azure_date_to_datetime
  simp only [hne, Bool.false_eq_true, if_false]
  rw [hmain]

/-- Witness for C5: a full timestamp with trailing content after its first
10 characters still parses to 2025-07-01. -/
theorem parse_fast_path_witness :
    "2025-07-01T12:00:00Z".data.take 10 = ['2', '0', '2', '5', '-', '0', '7', '-', '0', '1'] ∧
    parse_azure_date_to_datetime (some "2025-07-01T12:00:00Z") = some ⟨2025, 7, 1⟩ := by
  refine ⟨by decide, ?_⟩
  have h := parse_fast_path "2025-07-01T12:00:00Z" '2' '0' '2' '5' '0' '7' '0' '1'
    (by decide) (by decide) (by decide)
  exact h.trans (by decide)

/-- Every date `strptimeYMD` accepts is a valid calendar date. -/
theorem strptimeYMD_ok_valid (cs : List Char) (d : CivilDate)
    (h : strptimeYMD cs = .ok d) : d.isValid = true := by
  unfold strptimeYMD at h
  split at h
  · simp only [] at h
    split_ifs at h with h1 h2
    cases h
    assumption
  · cases h

/-- Every date `fromisoformat` accepts is a valid calendar date. -/
theorem fromisoformat_ok_valid (cs : List Char) (d : CivilDate)
    (h : fromisoformat cs = .ok d) : d.isValid = true := by
  unfold fromisoformat at h
  split at h
  · cases h
  · rename_i dt heq
    split at h
    · cases h
      exact strptimeYMD_ok_valid _ _ heq
    · split_ifs at h
      cases h
      exact strptimeYMD_ok_valid _ _ heq

/-- Every date `strptimeDT` accepts is a valid calendar date. -/
theorem strptimeDT_ok_valid (sep : Char) (cs : List Char) (d : CivilDate)
    (h : strptimeDT sep cs = .ok d) : d.isValid = true := by
  unfold strptimeDT at h
  split_ifs at h
  exact strptimeYMD_ok_valid _ _ h

/-- Every date the whole normalizer returns is a valid calendar date: each
of its accepting paths validated the date it constructed. -/
theorem parse_some_valid (s? : Option String) (d : CivilDate)
    (h : parse_azure_date_to_datetime s? = some d) : d.isValid = true := by
  cases s? with
  | none => simp [parse_azure_date_to_datetime] at h
  | some s =>
    unfold parse_azure_date_to_datetime at h
    simp only [] at h
    split_ifs at h with hguard
    · split at h
      · rename_i d1 heq1
        cases h
        exact strptimeYMD_ok_valid _ _ heq1
      · split at h
        · rename_i d2 heq2
          cases h
          exact strptimeDT_ok_valid _ _ _ heq2
        · split at h
          · rename_i d3 heq3
            cases h
            exact strptimeDT_ok_valid _ _ _ heq3
          · split at h
            · rename_i d4 heq4
              cases h
              exact strptimeYMD_ok_valid _ _ heq4
            · exact absurd h (by simp)
    · split at h
      · rename_i d1 heq1
        cases h
        exact fromisoformat_ok_valid _ _ heq1
      · split at h
        · rename_i d2 heq2
          cases h
          exact strptimeDT_ok_valid _ _ _ heq2
        · split at h
          · rename_i d3 heq3
            cases h
            exact strptimeDT_ok_valid _ _ _ heq3
          · split at h
            · rename_i d4 heq4
              cases h
              exact strptimeYMD_ok_valid _ _ heq4
            · exact absurd h (by simp)

/-- C9: for every input (absent, empty, or any string), the date normalizer
returns either `none` or a valid calendar date; every failure path of every
parsing stage degrades to `none` (exceptions are modelled as `Except`
errors, all of which are handled inside the function), so no exception
reaches the caller. -/
theorem parse_never_throws (s? : Option String) :
    parse_azure_date_to_datetime s? = none ∨
    ∃ d, parse_azure_date_to_datetime s? = some d ∧ d.isValid = true := by
  cases hp : parse_azure_date_to_datetime s? with
  | none => exact Or.inl rfl
  | some d => exact Or.inr ⟨d, rfl, parse_some_valid s? d hp⟩

/-- The per-day completed tallies never exceed the scope totals: each
in-scope item contributes at most once per day, and (for non-negative story
points) at most its own points. -/
theorem completedByDate_ok_bounds (s e cur : Int) (scope : List BItem) :
    ∀ (ci : Int) (cp : Rat),
      completedByDate s e cur scope = .ok (ci, cp) →
      0 ≤ ci ∧ ci ≤ scope.length ∧
      ((∀ it ∈ scope, 0 ≤ it.story_points) →
        0 ≤ cp ∧ cp ≤ (scope.map BItem.story_points).sum) := by
  induction scope with
  | nil =>
    intro ci cp h
    simp only [completedByDate, Except.ok.injEq, Prod.mk.injEq] at h
    obtain ⟨h1, h2⟩ := h
    subst h1
    subst h2
    simp
  | cons it rest ih =>
    intro ci cp h
    rw [completedByDate] at h
    split at h
    · cases h
    · rename_i b hb
      split at h
      · cases h
      · rename_i ci' cp' hrest
        have hih := ih ci' cp' hrest
        simp only [Except.ok.injEq] at h
        cases b with
        | false =>
          simp only [if_false, Bool.false_eq_true] at h
          rw [Prod.mk.injEq] at h
          obtain ⟨h1, h2⟩ := h
          subst h1
          subst h2
          refine ⟨hih.1, ?_, ?_⟩
          · have := hih.2.1
            simp only [List.length_cons]
            push_cast
            omega
          · intro hpts
            have hr := hih.2.2 (fun x hx => hpts x (List.mem_cons_of_mem _ hx))
            have hp0 : 0 ≤ it.story_points := hpts it (List.mem_cons_self _ _)
            simp only [List.map_cons, List.sum_cons]
            constructor
            · exact hr.1
            · have := hr.2
              linarith
        | true =>
          simp only [if_true] at h
          rw [Prod.mk.injEq] at h
          obtain ⟨h1, h2⟩ := h
          subst h1
          subst h2
          refine ⟨by linarith [hih.1], ?_, ?_⟩
          · have := hih.2.1
            simp only [List.length_cons]
            push_cast
            omega
          · intro hpts
            have hr := hih.2.2 (fun x hx => hpts x (List.mem_cons_of_mem _ hx))
            have hp0 : 0 ≤ it.story_points := hpts it (List.mem_cons_self _ _)
            simp only [List.map_cons, List.sum_cons]
            constructor
            · linarith [hr.1]
            · linarith [hr.2]

/-- Every snapshot of a successful burndown run is the result of
`dailySnapshot` on one of the iterated days. -/
theorem burndownLoop_ok_mem (scope : List BItem) (ti : Int) (tp : Rat) (s e : Int) :
    ∀ (days : List Int) (snaps : List DailyScopeSnapshot),
      burndownLoop scope ti tp s e days = .ok snaps →
      ∀ snap ∈ snaps, ∃ cur ∈ days, dailySnapshot scope ti tp s e cur = .ok snap := by
  intro days
  induction days with
  | nil =>
    intro snaps h snap hmem
    simp only [burndownLoop, Except.ok.injEq] at h
    subst h
    simp at hmem
  | cons cur rest ih =>
    intro snaps h snap hmem
    rw [burndownLoop] at h
    split at h
    · cases h
    · split at h
      · cases h
      · rename_i snap1 hsnap1
        split at h
        · cases h
        · rename_i snaps1 hsnaps1
          cases h
          rcases List.mem_cons.mp hmem with h1 | h2
          · subst h1
            exact ⟨cur, List.mem_cons_self _ _, hsnap1⟩
          · obtain ⟨cur2, hcur2, hd2⟩ := ih snaps1 hsnaps1 snap h2
            exact ⟨cur2, List.mem_cons_of_mem _ hcur2, hd2⟩

/-- A successful `dailySnapshot` exposes its fields in terms of the
completed tallies of its day. -/
theorem dailySnapshot_ok_fields (scope : List BItem) (ti : Int) (tp : Rat)
    (s e cur : Int) (snap : DailyScopeSnapshot)
    (h : dailySnapshot scope ti tp s e cur = .ok snap) :
    ∃ ci cp, completedByDate s e cur scope = .ok (ci, cp) ∧
      snap.completed_items = ci ∧ snap.completed_points = cp ∧
      snap.remaining_items = max 0 (ti - ci) ∧ snap.remaining_points = max 0 (tp - cp) ∧
      snap.total_scope_items = ti ∧ snap.total_scope_points = tp := by
  rw [dailySnapshot] at h
  split at h
  · cases h
  · rename_i ci cp hcd
    cases h
    exact ⟨ci, cp, hcd, rfl, rfl, rfl, rfl, rfl, rfl⟩

/-- C1: for every item list with non-negative story points (the data
model's `story_points >= 0` invariant) and every sprint window with
`sprintStart <= sprintEnd`, every snapshot of a reconstructed burndown
series satisfies `remaining + completed = total` for items and for points,
where the totals are the constant in-scope totals of the items whose state
is in `REMAINING_STATES ∪ COMPLETED_STATES`. -/
theorem scope_conservation (items : List BItem) (sprintStart sprintEnd : Int)
    (snaps : List DailyScopeSnapshot) (snap : DailyScopeSnapshot)
    (hwin : sprintStart ≤ sprintEnd)
    (hpts : ∀ it ∈ items, 0 ≤ it.story_points)
    (hok : render_burndown_series items sprintStart sprintEnd = .ok snaps)
    (hmem : snap ∈ snaps) :
    snap.remaining_items + snap.completed_items = snap.total_scope_items ∧
    snap.remaining_points + snap.completed_points = snap.total_scope_points ∧
    snap.total_scope_items = ((scopeItems items).length : Int) ∧
    snap.total_scope_points = ((scopeItems items).map BItem.story_points).sum := by
  have hscope_pts : ∀ it ∈ scopeItems items, 0 ≤ it.story_points := fun it hit =>
    hpts it (List.mem_of_mem_filter hit)
  unfold render_burndown_series at hok
  simp only [] at hok
  obtain ⟨cur, hcur, hday⟩ := burndownLoop_ok_mem _ _ _ _ _ _ snaps hok snap hmem
  obtain ⟨ci, cp, hcd, h1, h2, h3, h4, h5, h6⟩ := dailySnapshot_ok_fields _ _ _ _ _ _ _ hday
  have hb := completedByDate_ok_bounds _ _ _ _ ci cp hcd
  have hpb := hb.2.2 hscope_pts
  refine ⟨?_, ?_, h5, h6⟩
  · rw [h3, h1, h5]
    have hle : ci ≤ ((scopeItems items).length : Int) := hb.2.1
    omega
  · rw [h4, h2, h6]
    have hle : cp ≤ ((scopeItems items).map BItem.story_points).sum := hpb.2
    rw [max_eq_right (by linarith)]
    ring

/-- Witness for C1: the day-0 snapshot of a concrete two-item sprint. -/
theorem scope_conservation_witness :
    (DailyScopeSnapshot.mk 0 1 3 1 5 2 8).remaining_items +
      (DailyScopeSnapshot.mk 0 1 3 1 5 2 8).completed_items =
      (DailyScopeSnapshot.mk 0 1 3 1 5 2 8).total_scope_items ∧
    (DailyScopeSnapshot.mk 0 1 3 1 5 2 8).remaining_points +
      (DailyScopeSnapshot.mk 0 1 3 1 5 2 8).completed_points =
      (DailyScopeSnapshot.mk 0 1 3 1 5 2 8).total_scope_points :=
  let h := scope_conservation [⟨"Closed", some ⟨1970, 1, 1⟩, none, 5⟩, ⟨"Active", none, none, 3⟩]
    0 1 [⟨0, 1, 3, 1, 5, 2, 8⟩, ⟨1, 1, 3, 1, 5, 2, 8⟩] ⟨0, 1, 3, 1, 5, 2, 8⟩
    (by decide) (by decide) (by decide) (by decide)
  ⟨h.1, h.2.1⟩

/-- C10: in every snapshot of a reconstructed series the completed tallies
never exceed the scope totals (for points, given non-negative story
points), so the `max(0, ...)` clamps on the remaining tallies never change
their values — the midpoint heuristic cannot overcount relative to total
scope. -/
theorem completed_never_overcounts (items : List BItem) (sprintStart sprintEnd : Int)
    (snaps : List DailyScopeSnapshot) (snap : DailyScopeSnapshot)
    (hok : render_burndown_series items sprintStart sprintEnd = .ok snaps)
    (hmem : snap ∈ snaps) :
    snap.completed_items ≤ snap.total_scope_items ∧
    snap.remaining_items = snap.total_scope_items - snap.completed_items ∧
    ((∀ it ∈ items, 0 ≤ it.story_points) →
      snap.completed_points ≤ snap.total_scope_points ∧
      snap.remaining_points = snap.total_scope_points - snap.completed_points) := by
  unfold render_burndown_series at hok
  simp only [] at hok
  obtain ⟨cur, hcur, hday⟩ := burndownLoop_ok_mem _ _ _ _ _ _ snaps hok snap hmem
  obtain ⟨ci, cp, hcd, h1, h2, h3, h4, h5, h6⟩ := dailySnapshot_ok_fields _ _ _ _ _ _ _ hday
  have hb := completedByDate_ok_bounds _ _ _ _ ci cp hcd
  refine ⟨?_, ?_, ?_⟩
  · rw [h1, h5]
    exact hb.2.1
  · rw [h3, h1, h5]
    have hle : ci ≤ ((scopeItems items).length : Int) := hb.2.1
    omega
  · intro hpts
    have hscope_pts : ∀ it ∈ scopeItems items, 0 ≤ it.story_points := fun it hit =>
      hpts it (List.mem_of_mem_filter hit)
    have hpb := hb.2.2 hscope_pts
    constructor
    · rw [h2, h6]
      exact hpb.2
    · rw [h4, h2, h6]
      rw [max_eq_right (by linarith [hpb.2])]

/-- Witness for C10: the day-1 snapshot of the same concrete sprint. -/
theorem completed_never_overcounts_witness :
    (DailyScopeSnapshot.mk 1 1 3 1 5 2 8).completed_items ≤
      (DailyScopeSnapshot.mk 1 1 3 1 5 2 8).total_scope_items ∧
    (DailyScopeSnapshot.mk 1 1 3 1 5 2 8).remaining_items =
      (DailyScopeSnapshot.mk 1 1 3 1 5 2 8).total_scope_items -
        (DailyScopeSnapshot.mk 1 1 3 1 5 2 8).completed_items ∧
    (DailyScopeSnapshot.mk 1 1 3 1 5 2 8).remaining_points =
      (DailyScopeSnapshot.mk 1 1 3 1 5 2 8).total_scope_points -
        (DailyScopeSnapshot.mk 1 1 3 1 5 2 8).completed_points :=
  let h := completed_never_overcounts [⟨"Closed", some ⟨1970, 1, 1⟩, none, 5⟩, ⟨"Active", none, none, 3⟩]
    0 1 [⟨0, 1, 3, 1, 5, 2, 8⟩, ⟨1, 1, 3, 1, 5, 2, 8⟩] ⟨1, 1, 3, 1, 5, 2, 8⟩
    (by decide) (by decide)
  ⟨h.1, h.2.1, (h.2.2 (by decide)).2⟩

/-- Counterexample to C2 as stated: a single-day sprint whose only in-scope
item is in a completed state raises `ZeroDivisionError` even though the
item's completion date is present — the first-day debug pass re-parses the
already-parsed date, obtains `None`, and evaluates the midpoint ratio,
dividing by `(sprintEnd - sprintStart).days == 0`. -/
theorem single_day_sprint_throws :
    render_burndown_series [⟨"Closed", some ⟨2025, 8, 13⟩, none, 2⟩]
      (rataDie ⟨2025, 8, 13⟩) (rataDie ⟨2025, 8, 13⟩) = .error "ZeroDivisionError" := by
  rfl

/-- An item whose completion date is present (or that is not in a completed
state) never reaches the midpoint division. -/
theorem itemCompletedBy_isOk (s e cur : Int) (it : BItem)
    (h : it.state ∈ COMPLETED_STATES →
      (completionOf it.resolved_date it.closed_date).isSome = true) :
    ∃ b, itemCompletedBy s e cur it = .ok b := by
  unfold itemCompletedBy
  by_cases hst : it.state ∈ COMPLETED_STATES
  · rw [if_pos hst]
    cases hc : completionOf it.resolved_date it.closed_date with
    | some c => exact ⟨_, rfl⟩
    | none =>
      exfalso
      have hs := h hst
      rw [hc] at hs
      simp at hs
  · rw [if_neg hst]
    exact ⟨false, rfl⟩

/-- When every completed-state item of the scope has a completion date, the
daily tally never raises. -/
theorem completedByDate_isOk_of_dates (s e cur : Int) (scope : List BItem)
    (h : ∀ it ∈ scope, it.state ∈ COMPLETED_STATES →
      (completionOf it.resolved_date it.closed_date).isSome = true) :
    ∃ p, completedByDate s e cur scope = .ok p := by
  induction scope with
  | nil => exact ⟨(0, 0), rfl⟩
  | cons it rest ih =>
    obtain ⟨b, hb⟩ := itemCompletedBy_isOk s e cur it (h it (List.mem_cons_self _ _))
    obtain ⟨⟨ci, cp⟩, hp⟩ := ih (fun x hx => h x (List.mem_cons_of_mem _ hx))
    refine ⟨(if b then (ci + 1, cp + it.story_points) else (ci, cp)), ?_⟩
    rw [completedByDate, hb, hp]

/-- The first-day debug pass always derives `None` as the completion date:
it feeds already-parsed datetimes back into the string parser. -/
theorem debugCompletionDate_eq_none (it : BItem) : debugCompletionDate it = none := by
  rcases it with ⟨st, rd, cd, sp⟩
  cases rd <;> cases cd <;> rfl

/-- The first-day debug pass succeeds when no in-scope item is in a
completed state (the midpoint ratio is never evaluated). -/
theorem debugPass_ok_of_no_completed (s e cur : Int) :
    ∀ scope : List BItem, (∀ it ∈ scope, it.state ∉ COMPLETED_STATES) →
      debugPass s e cur scope = .ok () := by
  intro scope
  induction scope with
  | nil => intro _; rfl
  | cons it rest ih =>
    intro h
    have hst := h it (List.mem_cons_self _ _)
    have hchk : debugItemCheck s e cur it = .ok () := by
      unfold debugItemCheck
      rw [if_neg hst]
    rw [debugPass, hchk]
    exact ih (fun x hx => h x (List.mem_cons_of_mem _ hx))

/-- On a single-day sprint the first-day debug pass raises
`ZeroDivisionError` as soon as the scope contains any completed-state item,
whether or not its completion date is present. -/
theorem debugPass_error_of_single_day (s cur : Int) :
    ∀ scope : List BItem, (∃ it ∈ scope, it.state ∈ COMPLETED_STATES) →
      debugPass s s cur scope = .error "ZeroDivisionError" := by
  intro scope
  induction scope with
  | nil =>
    intro h
    simp at h
  | cons it rest ih =>
    intro h
    by_cases hst : it.state ∈ COMPLETED_STATES
    · have hchk : debugItemCheck s s cur it = .error "ZeroDivisionError" := by
        unfold debugItemCheck
        rw [if_pos hst, debugCompletionDate_eq_none]
        rw [if_pos (by omega)]
      rw [debugPass, hchk]
    · obtain ⟨x, hx, hxst⟩ := h
      rcases List.mem_cons.mp hx with h1 | h2
      · subst h1
        exact absurd hxst hst
      · have hchk : debugItemCheck s s cur it = .ok () := by
          unfold debugItemCheck
          rw [if_neg hst]
        rw [debugPass, hchk]
        exact ih ⟨x, h2, hxst⟩

/-- C2 (amended): when `sprintStart == sprintEnd`, the reconstruction
throws `ZeroDivisionError` exactly when some in-scope item is in a
completed state — the first-day debug pass re-parses the already-parsed
dates, always obtains `None`, and evaluates the midpoint ratio for every
completed-state item, dividing by zero whether or not completion dates are
present; it does not throw only when no in-scope item is in a completed
state. -/
theorem single_day_reconstruction_iff (items : List BItem) (day : Int) :
    (render_burndown_series items day day).isOk = true ↔
      ∀ it ∈ scopeItems items, it.state ∉ COMPLETED_STATES := by
  unfold render_burndown_series
  simp only []
  have hdays : sprintDays day day = [day] := by
    unfold sprintDays
    rw [show (day - day + 1).toNat = 1 by omega]
    rw [show List.range 1 = [0] from rfl]
    simp
  rw [hdays, burndownLoop, if_pos rfl]
  constructor
  · intro hok it hit
    by_contra hst
    have herr := debugPass_error_of_single_day day day (scopeItems items) ⟨it, hit, hst⟩
    rw [herr] at hok
    simp [Except.isOk, Except.toBool] at hok
  · intro hno
    rw [debugPass_ok_of_no_completed day day day _ hno]
    obtain ⟨⟨ci, cp⟩, hp⟩ := completedByDate_isOk_of_dates day day day (scopeItems items)
      (fun it hit hst => absurd hst (hno it hit))
    rw [dailySnapshot, hp]
    rfl

/-- Witness for C2 (amended): a single-day sprint whose only item is still
active reconstructs successfully. -/
theorem single_day_reconstruction_iff_witness :
    (render_burndown_series [⟨"Active", none, none, 1⟩] 5 5).isOk = true :=
  (single_day_reconstruction_iff _ _).mpr (by decide)

/-- C4 (amended): in `render_overview_tab` the long-cycle threshold is
`mean + stddev` when at least 2 items have cycle-time data and `mean + 5`
when exactly one item has, and the items exceeding the threshold are
reported sorted descending by cycle time (the output is sorted under
`cycleGE` and contains exactly the exceeders).  The companion
`analyze_cycle_time` differs — see the counterexample. -/
theorem long_cycle_analysis (rows : List CycleRow) :
    (2 ≤ rows.length → long_cycle_threshold rows =
      (listMean (cycleValues rows) : Real) + sampleStd (cycleValues rows)) ∧
    (rows.length = 1 → long_cycle_threshold rows =
      (listMean (cycleValues rows) : Real) + 5) ∧
    List.Sorted cycleGE (long_items rows) ∧
    (∀ r, r ∈ long_items rows ↔ r ∈ rows ∧
      long_cycle_threshold rows < (r.cycle_time_days : Real)) := by
  refine ⟨?_, ?_, ?_, ?_⟩
  · intro h2
    unfold long_cycle_threshold
    rw [if_pos (by omega)]
  · intro h1
    unfold long_cycle_threshold
    rw [if_neg (by omega)]
  · exact List.sorted_insertionSort cycleGE _
  · intro r
    unfold long_items
    rw [(List.perm_insertionSort cycleGE _).mem_iff, List.mem_filter]
    simp only [decide_eq_true_eq]

/-- Witness for C4 (amended): a three-row input takes the `mean + stddev`
branch and yields a descending-sorted outlier list. -/
theorem long_cycle_analysis_witness :
    2 ≤ ([⟨1, 1⟩, ⟨2, 1⟩, ⟨3, 10⟩] : List CycleRow).length ∧
    long_cycle_threshold [⟨1, 1⟩, ⟨2, 1⟩, ⟨3, 10⟩] =
      (listMean (cycleValues [⟨1, 1⟩, ⟨2, 1⟩, ⟨3, 10⟩]) : Real) +
        sampleStd (cycleValues [⟨1, 1⟩, ⟨2, 1⟩, ⟨3, 10⟩]) ∧
    List.Sorted cycleGE (long_items [⟨1, 1⟩, ⟨2, 1⟩, ⟨3, 10⟩]) :=
  ⟨by decide, (long_cycle_analysis _).1 (by decide), (long_cycle_analysis _).2.2.1⟩

/-- Counterexample to C4 as stated: the companion `analyze_cycle_time` of
`azure_devops_sprint_report.py`, with a single item of cycle time 8, uses
`mean * 1.5 = 12` as the threshold, not `mean + 5 = 13`. -/
theorem analyze_cycle_time_threshold_counterexample :
    ([⟨1, 8⟩] : List CycleRow).length < 2 ∧
    analyze_cycle_time_threshold [⟨1, 8⟩] ≠ (listMean (cycleValues [⟨1, 8⟩]) : Real) + 5 := by
  constructor
  · decide
  · unfold analyze_cycle_time_threshold
    rw [if_neg (by decide)]
    have hm : listMean (cycleValues [⟨1, 8⟩]) = 8 := by
      norm_num [listMean, cycleValues]
    rw [hm]
    norm_num

end IterationSummary
